import Mathlib

/-!
Verification of the classification-and-decode engine of the text-decoder
service (server routes: `decryptDecimal`, `decryptHex`, `decryptBase64`,
`decryptCaesar`, `decryptROT13`, `decryptURL`, `detectEncryptionType`,
`performDecryption`; storage: `getDecryptionSessions`).

Modelling conventions:
- A JavaScript string is a sequence of UTF-16 code units; we model it as
  `JSString := List Nat` (each entry a code unit, written mod 2^16 where the
  source can overflow).  `jsOfString` converts a Lean string literal (all our
  concrete inputs are in the Basic Multilingual Plane) to its code-unit list.
- JavaScript numbers are IEEE doubles; every quantity that actually flows
  through the engine here is an integer, so we use `Int`/`Nat` with `NaN`
  modelled as `Option.none` where a `NaN` can arise (`parseInt`).  For
  fragments long enough that an IEEE double would round (beyond 2^53) the
  model keeps exact integers; no claim depends on that regime.
- Functions that can throw are modelled as `Except`/`Option` values; functions
  whose JS bodies are total (they cannot throw even though the source wraps
  them in try/catch) are modelled as `.ok` of a total computation, with the
  dead catch branch noted in a comment.
-/

/-- A JavaScript string: a list of UTF-16 code units. -/
abbrev JSString := List Nat

/-- Code-unit list of a Lean string literal (valid for BMP-only literals,
which covers every concrete input used below). -/
def jsOfString (s : String) : JSString := s.data.map (fun c => c.toNat)

/-- The character class of the JS regex `\s` (also the whitespace set
`parseInt` skips): tab, LF, VT, FF, CR, space, NBSP, and the Unicode
space/line separators plus the BOM. -/
def jsIsWhitespace (c : Nat) : Bool :=
  c = 9 || c = 10 || c = 11 || c = 12 || c = 13 || c = 32 || c = 160 ||
  c = 0x1680 || (0x2000 ≤ c && c ≤ 0x200A) || c = 0x2028 || c = 0x2029 ||
  c = 0x202F || c = 0x205F || c = 0x3000 || c = 0xFEFF

/-- The JS regex class `\d` (ASCII decimal digit). -/
def jsIsDigit (c : Nat) : Bool := 48 ≤ c && c ≤ 57

/-- The JS regex class `[0-9a-fA-F]`. -/
def jsIsHexDigit (c : Nat) : Bool :=
  jsIsDigit c || (65 ≤ c && c ≤ 70) || (97 ≤ c && c ≤ 102)

/-- Numeric value of a (decimal or hex) digit code unit. -/
def jsHexVal (c : Nat) : Nat :=
  if c ≤ 57 then c - 48 else if c ≤ 70 then c - 55 else c - 87

/-- ECMAScript `ToUint16`, as applied by `String.fromCharCode` to an integral
argument: reduce mod 2^16. -/
def jsFromCharCode (x : Int) : Nat := (x % 65536).toNat

/-- `String.fromCharCode` applied to a possibly-`NaN` number: `ToUint16(NaN)`
is `0`, so a `NaN` argument produces the NUL code unit. -/
def jsFromCharCodeOpt : Option Int → Nat
  | none => 0
  | some x => jsFromCharCode x

/-- Value of a digit run under the given base (digits already validated). -/
def jsDigitsVal (base : Nat) (ds : List Nat) : Nat :=
  ds.foldl (fun a c => a * base + jsHexVal c) 0

/-- Body of ECMAScript `parseInt` after whitespace and sign handling: an
optional `0x`/`0X` marker selects base 16 (it is honoured both when the radix
argument is absent and when it is 16); then the longest run of digits of the
selected base is read, `none` (JS `NaN`) if that run is empty. -/
def jsParseIntBody (radix16 : Bool) (s : JSString) (sg : Int) : Option Int :=
  let um : Bool × JSString :=
    match s with
    | 48 :: 120 :: r => (true, r)
    | 48 :: 88 :: r => (true, r)
    | _ => (radix16, s)
  let ds := um.2.takeWhile (if um.1 then jsIsHexDigit else jsIsDigit)
  if ds.isEmpty then none
  else some (sg * (jsDigitsVal (if um.1 then 16 else 10) ds : Nat))

/-- ECMAScript `parseInt(s)` / `parseInt(s, 16)` (`radix16` selects the
latter): skip leading whitespace, read an optional sign, then parse per
`jsParseIntBody`. -/
def jsParseIntAux (radix16 : Bool) (s : JSString) : Option Int :=
  match s.dropWhile jsIsWhitespace with
  | 43 :: r => jsParseIntBody radix16 r 1
  | 45 :: r => jsParseIntBody radix16 r (-1)
  | r => jsParseIntBody radix16 r 1

/-- `parseInt(s)` with no radix argument, as called by `decryptDecimal`. -/
def jsParseInt (s : JSString) : Option Int := jsParseIntAux false s

/-- `parseInt(s, 16)`, as called by `decryptHex`. -/
def jsParseIntHex (s : JSString) : Option Int := jsParseIntAux true s

/-- `String.prototype.split` with a single-character separator. -/
def jsSplit (sep : Nat) : JSString → List JSString
  | [] => [[]]
  | c :: rest =>
    match jsSplit sep rest with
    | h :: t => if c = sep then [] :: h :: t else (c :: h) :: t
    | [] => [[c]]

/-- Source `decryptDecimal`: `text.split('\\').filter(Boolean)` keeps the
non-empty fragments, each is passed through `parseInt` and
`String.fromCharCode`, and the characters are joined.  The surrounding
try/catch is dead code: `parseInt` never throws (it returns `NaN`, which
`String.fromCharCode` maps to code unit 0) and neither do
`split`/`filter`/`join`, so this function always succeeds. -/
def decryptDecimal (text : JSString) : Except String JSString :=
  .ok (((jsSplit 92 text).filter (fun f => !f.isEmpty)).map
    (fun num => jsFromCharCodeOpt (jsParseInt num)))

/-- Removal of every `\s` character, as in `text.replace(/\s/g, '')`. -/
def stripJsWhitespace (s : JSString) : JSString :=
  s.filter (fun c => !jsIsWhitespace c)

/-- The chunks `cleanHex.substr(i, 2)` for `i = 0, 2, 4, ...`: pairs of code
units, with a final singleton when the length is odd. -/
def jsChunk2 : JSString → List JSString
  | [] => []
  | [a] => [[a]]
  | a :: b :: rest => [a, b] :: jsChunk2 rest

/-- Source `decryptHex`: strip whitespace, then turn each 2-character chunk
(the last chunk has 1 character when the stripped length is odd) into the
code unit `String.fromCharCode(parseInt(chunk, 16))`.  The try/catch is dead
code: `parseInt` and `String.fromCharCode` are total, so the function always
succeeds — including on odd lengths and non-hex pairs, where `NaN` becomes
code unit 0. -/
def decryptHex (text : JSString) : Except String JSString :=
  .ok ((jsChunk2 (stripJsWhitespace text)).map
    (fun pair => jsFromCharCodeOpt (jsParseIntHex pair)))

/-- The JS `%` operator on integral values: truncated remainder, taking the
sign of the dividend (this agrees with `Int.tmod`; Lean's own `%` on `Int` is
the Euclidean `emod`, which differs on negative dividends). -/
def jsRem (a b : Int) : Int := if 0 ≤ a then a % b else -((-a) % b)

/-- Per-character body of `decryptCaesar`: the regex `[a-zA-Z]` selects ASCII
letters; for those, `start` is 65 or 97 by the `char <= 'Z'` test and the
replacement is `fromCharCode(((code - start - shift + 26) % 26) + start)`;
every other character is left unchanged. -/
def caesarShiftChar (shift : Int) (c : Nat) : Nat :=
  if (65 ≤ c ∧ c ≤ 90) ∨ (97 ≤ c ∧ c ≤ 122) then
    jsFromCharCode
      (jsRem ((c : Int) - (if c ≤ 90 then 65 else 97) - shift + 26) 26 +
        (if c ≤ 90 then 65 else 97))
  else c

/-- Source `decryptCaesar` (default shift 3, mirroring the JS default
parameter): a per-character replacement, hence a map over the code units.
Total — it never fails. -/
def decryptCaesar (text : JSString) (shift : Int := 3) : JSString :=
  text.map (caesarShiftChar shift)

/-- Source `decryptROT13`: `decryptCaesar(text, 13)`. -/
def decryptROT13 (text : JSString) : JSString := decryptCaesar text 13

/-- Node's base64 character table (`unbase64`): the standard alphabet plus
the URL-safe variants `-` and `_`; every other character is invalid. -/
def unbase64 (c : Nat) : Option Nat :=
  if 65 ≤ c ∧ c ≤ 90 then some (c - 65)
  else if 97 ≤ c ∧ c ≤ 122 then some (c - 71)
  else if 48 ≤ c ∧ c ≤ 57 then some (c + 4)
  else if c = 43 ∨ c = 45 then some 62
  else if c = 47 ∨ c = 95 then some 63
  else none

/-- Packs a stream of 6-bit values into bytes, emitting each byte as soon as
8 bits have accumulated and dropping the final sub-byte remainder, exactly as
Node's base64 decoder does. -/
def packSextets : List Nat → Nat → Nat → List Nat
  | [], _, _ => []
  | v :: rest, acc, nbits =>
    let acc2 := acc * 64 + v
    let nbits2 := nbits + 6
    if 8 ≤ nbits2 then
      acc2 / 2 ^ (nbits2 - 8) :: packSextets rest (acc2 % 2 ^ (nbits2 - 8)) (nbits2 - 8)
    else
      packSextets rest acc2 nbits2

/-- `Buffer.from(text, 'base64')`: Node's forgiving decoder skips every
character outside the base64 table, stops at the first `=`, and keeps only
the complete bytes of the resulting bit stream.  It never throws. -/
def nodeBase64Bytes (s : JSString) : List Nat :=
  packSextets ((s.takeWhile (fun c => c ≠ 61)).filterMap unbase64) 0 0

/-- Lead-byte step of UTF-8 decoding with replacement (WHATWG `utf-8 decode`):
returns emitted code points, the number of continuation bytes still needed,
the initial code-point accumulator, and the valid range for the next byte.
A lone continuation byte or an invalid lead byte yields U+FFFD. -/
def utf8Lead (b : Nat) : List Nat × Nat × Nat × Nat × Nat :=
  if b ≤ 0x7F then ([b], 0, 0, 0, 0)
  else if 0xC2 ≤ b ∧ b ≤ 0xDF then ([], 1, b - 0xC0, 0x80, 0xBF)
  else if 0xE0 ≤ b ∧ b ≤ 0xEF then
    ([], 2, b - 0xE0, if b = 0xE0 then 0xA0 else 0x80, if b = 0xED then 0x9F else 0xBF)
  else if 0xF0 ≤ b ∧ b ≤ 0xF4 then
    ([], 3, b - 0xF0, if b = 0xF0 then 0x90 else 0x80, if b = 0xF4 then 0x8F else 0xBF)
  else ([0xFFFD], 0, 0, 0, 0)

/-- Main loop of UTF-8 decoding with replacement: on a byte outside the
expected continuation range the pending sequence becomes U+FFFD and the byte
is reprocessed as a lead byte; a truncated sequence at end of input also
becomes U+FFFD. -/
def utf8Run : List Nat → Nat → Nat → Nat → Nat → List Nat
  | [], needed, _, _, _ => if needed = 0 then [] else [0xFFFD]
  | b :: rest, 0, _, _, _ =>
    match utf8Lead b with
    | (out, n2, cp2, lo2, hi2) => out ++ utf8Run rest n2 cp2 lo2 hi2
  | b :: rest, 1, cp, lo, hi =>
    if lo ≤ b ∧ b ≤ hi then (cp * 64 + (b - 0x80)) :: utf8Run rest 0 0 0 0
    else
      0xFFFD :: (match utf8Lead b with
        | (out, n2, cp2, lo2, hi2) => out ++ utf8Run rest n2 cp2 lo2 hi2)
  | b :: rest, needed + 2, cp, lo, hi =>
    if lo ≤ b ∧ b ≤ hi then utf8Run rest (needed + 1) (cp * 64 + (b - 0x80)) 0x80 0xBF
    else
      0xFFFD :: (match utf8Lead b with
        | (out, n2, cp2, lo2, hi2) => out ++ utf8Run rest n2 cp2 lo2 hi2)

/-- UTF-8 decoding of a byte list with U+FFFD replacement, as performed by
`buffer.toString('utf8')`.  Total — invalid bytes never make it throw. -/
def utf8DecodeReplace (bytes : List Nat) : List Nat := utf8Run bytes 0 0 0 0

/-- UTF-16 code units of a code point (surrogate pair above U+FFFF). -/
def codePointToUnits (v : Nat) : List Nat :=
  if v < 0x10000 then [v]
  else [0xD800 + (v - 0x10000) / 1024, 0xDC00 + (v - 0x10000) % 1024]

/-- Source `decryptBase64`: `Buffer.from(text, 'base64').toString('utf8')`.
The try/catch is dead code: Node's base64 decoder is forgiving (invalid
characters are skipped, never rejected) and `toString('utf8')` replaces
invalid bytes with U+FFFD, so this function always succeeds. -/
def decryptBase64 (text : JSString) : Except String JSString :=
  .ok (((utf8DecodeReplace (nodeBase64Bytes text)).map codePointToUnits).flatten)

/-- Hex-digit value used by `decodeURIComponent`'s `%XX` parsing. -/
def uriHexVal (c : Nat) : Option Nat :=
  if jsIsHexDigit c then some (jsHexVal c) else none

/-- Reads one `%XX` triplet at the front of the string: the byte value and
the remainder, or `none` (URIError) if the two hex digits are missing. -/
def uriTriplet : JSString → Option (Nat × JSString)
  | 37 :: h1 :: h2 :: r =>
    match uriHexVal h1, uriHexVal h2 with
    | some a, some b => some (a * 16 + b, r)
    | _, _ => none
  | _ => none

/-- Reads one continuation byte of a multi-byte UTF-8 sequence: it must be a
literal `%XX` triplet whose byte lies in `[lo, hi]`; returns its 6 payload
bits and the remainder. -/
def uriCont (lo hi : Nat) (s : JSString) : Option (Nat × JSString)  :=
  match uriTriplet s with
  | some (b, r) => if lo ≤ b ∧ b ≤ hi then some (b - 0x80, r) else none
  | none => none

/-- ECMAScript `Decode` (the body of `decodeURIComponent`): literal
characters pass through; each `%XX` escape must have two hex digits; a byte
with the high bit set must begin a strictly valid UTF-8 sequence whose
continuation bytes are themselves `%XX` escapes, else a `URIError` (`none`)
results.  The fuel argument only bounds the recursion; every step consumes at
least one code unit, so `length + 1` fuel is never exhausted. -/
def uriDecodeAux : Nat → JSString → Option JSString
  | 0, _ => none
  | _ + 1, [] => some []
  | fuel + 1, 37 :: rest =>
    (match uriTriplet (37 :: rest) with
    | none => none
    | some (b, r) =>
      if b ≤ 0x7F then (uriDecodeAux fuel r).map (fun l => b :: l)
      else if 0xC2 ≤ b ∧ b ≤ 0xDF then
        match uriCont 0x80 0xBF r with
        | some (x1, r1) => (uriDecodeAux fuel r1).map (fun l => ((b - 0xC0) * 64 + x1) :: l)
        | none => none
      else if 0xE0 ≤ b ∧ b ≤ 0xEF then
        match uriCont (if b = 0xE0 then 0xA0 else 0x80) (if b = 0xED then 0x9F else 0xBF) r with
        | some (x1, r1) =>
          match uriCont 0x80 0xBF r1 with
          | some (x2, r2) =>
            (uriDecodeAux fuel r2).map (fun l => ((b - 0xE0) * 4096 + x1 * 64 + x2) :: l)
          | none => none
        | none => none
      else if 0xF0 ≤ b ∧ b ≤ 0xF4 then
        match uriCont (if b = 0xF0 then 0x90 else 0x80) (if b = 0xF4 then 0x8F else 0xBF) r with
        | some (x1, r1) =>
          match uriCont 0x80 0xBF r1 with
          | some (x2, r2) =>
            match uriCont 0x80 0xBF r2 with
            | some (x3, r3) =>
              (uriDecodeAux fuel r3).map
                (fun l => codePointToUnits ((b - 0xF0) * 262144 + x1 * 4096 + x2 * 64 + x3) ++ l)
            | none => none
          | none => none
        | none => none
      else none)
  | fuel + 1, c :: rest => (uriDecodeAux fuel rest).map (fun l => c :: l)

/-- `decodeURIComponent(s)`: `none` models a thrown `URIError`. -/
def jsDecodeURIComponent (s : JSString) : Option JSString :=
  uriDecodeAux (s.length + 1) s

/-- Source `decryptURL`: `decodeURIComponent` can genuinely throw, and the
catch branch rethrows the Arabic failure message. -/
def decryptURL (text : JSString) : Except String JSString :=
  match jsDecodeURIComponent text with
  | some r => .ok r
  | none => .error "فشل في فك تشفير URL"

/-- Removal of every backslash, as in `text.replace(/\\/g, '')`. -/
def stripBackslashes (s : JSString) : JSString := s.filter (fun c => c ≠ 92)

/-- First classifier rule: `/^\\?\d+(\\?\d+)*$/` tested against the text with
all backslashes removed.  On a backslash-free subject each optional `\\?` can
only match the empty string, so the pattern accepts exactly the non-empty
all-digit strings. -/
def decimalRule (s : JSString) : Bool :=
  !(stripBackslashes s).isEmpty && (stripBackslashes s).all jsIsDigit

/-- Second classifier rule: `/^[0-9a-fA-F\s]+$/.test(text) && text.length % 2 === 0`.
Note both conjuncts look at the raw text: whitespace characters count toward
the length parity. -/
def hexRule (s : JSString) : Bool :=
  (!s.isEmpty && s.all (fun c => jsIsHexDigit c || jsIsWhitespace c)) &&
    s.length % 2 == 0

/-- The base64 alphabet `[A-Za-z0-9+/]`. -/
def jsIsBase64Char (c : Nat) : Bool :=
  (65 ≤ c && c ≤ 90) || (97 ≤ c && c ≤ 122) || jsIsDigit c || c == 43 || c == 47

/-- Third classifier rule: `/^[A-Za-z0-9+/]+=*$/.test(text) && text.length % 4 === 0`.
Since `=` is not in the alphabet, the regex splits the text into a non-empty
alphabet part followed by trailing `=` signs only. -/
def base64Rule (s : JSString) : Bool :=
  (!(s.takeWhile jsIsBase64Char).isEmpty &&
    (s.drop (s.takeWhile jsIsBase64Char).length).all (fun c => c == 61)) &&
    s.length % 4 == 0

/-- The character class `[A-Za-z0-9%\-_.~]` of the URL rule. -/
def jsIsUrlChar (c : Nat) : Bool :=
  (65 ≤ c && c ≤ 90) || (97 ≤ c && c ≤ 122) || jsIsDigit c ||
  c == 37 || c == 45 || c == 95 || c == 46 || c == 126

/-- Fourth classifier rule: `text.includes('%') && /^[A-Za-z0-9%\-_.~]+$/.test(text)`. -/
def urlRule (s : JSString) : Bool := s.contains 37 && s.all jsIsUrlChar

/-- Source `detectEncryptionType`: the four rules are tried in order
decimal, hex, base64, url; `'caesar'` is the fallback. -/
def detectEncryptionType (s : JSString) : String :=
  if decimalRule s then "decimal"
  else if hexRule s then "hex"
  else if base64Rule s then "base64"
  else if urlRule s then "url"
  else "caesar"

/-- The kind `performDecryption` dispatches on: the caller's kind, or the
classifier's answer when the caller passed `'auto'`. -/
def resolveKind (text : JSString) (encType : String) : String :=
  if encType = "auto" then detectEncryptionType text else encType

/-- The `switch (detectedType)` of `performDecryption`: one decoder per
recognized label, the Caesar branch receiving the optional shift (JS default
parameter 3 when it is `undefined`), and a thrown error (Arabic
"unsupported encryption type") on any other label. -/
def decodeByKind (text : JSString) (kind : String) (caesarShift : Option Int) :
    Except String JSString :=
  match kind with
  | "decimal" => decryptDecimal text
  | "hex" => decryptHex text
  | "base64" => decryptBase64 text
  | "caesar" => .ok (decryptCaesar text (caesarShift.getD 3))
  | "rot13" => .ok (decryptROT13 text)
  | "url" => decryptURL text
  | _ => .error "نوع التشفير غير مدعوم"

/-- Source `performDecryption`: resolve the kind (running the classifier in
auto mode), run the matching decoder, and return the decoded text together
with the resolved kind. -/
def performDecryption (text : JSString) (encType : String) (caesarShift : Option Int) :
    Except String (JSString × String) :=
  (decodeByKind text (resolveKind text encType) caesarShift).map
    (fun d => (d, resolveKind text encType))

/-- A history record as stored by `MemStorage` (shape of the
`decryption_sessions` row): `createdAt` is nullable in the row type, though
`createDecryptionSession` always fills it with the current time. -/
structure DecryptionSession where
  id : String
  originalText : JSString
  decodedText : JSString
  encryptionType : String
  originalLength : Nat
  decodedLength : Nat
  createdAt : Option Nat

/-- The sort key `(x.createdAt?.getTime() || 0)` of the comparator in
`getDecryptionSessions`: the creation timestamp, with a missing date read
as 0. -/
def sessionSortKey (s : DecryptionSession) : Nat := s.createdAt.getD 0

/-- The comparator `(a, b) => bKey - aKey` sorts ascending in comparator
order, i.e. places `a` before `b` exactly when `a`'s key is at least `b`'s:
newest first. -/
def sessionLe (a b : DecryptionSession) : Bool :=
  sessionSortKey b ≤ sessionSortKey a

/-- Source `getDecryptionSessions` (default limit 10): take the stored
sessions in insertion order (`Array.from(map.values())`), sort them
newest-first — `Array.prototype.sort` is stable, hence `mergeSort` — and
`slice(0, limit)`. -/
def getDecryptionSessions (sessions : List DecryptionSession) (limit : Nat := 10) :
    List DecryptionSession :=
  (sessions.mergeSort sessionLe).take limit

/-- The Caesar decode step as the specification words it: each ASCII letter
is shifted backward by `shift` positions within its own case's 26-letter
alphabet, wrapping modulo 26 (mathematical modulus); every other character
is unchanged.  Stated separately from `caesarShiftChar` (the source's
computation) so the two can be compared. -/
def caesarClaimChar (shift : Int) (c : Nat) : Nat :=
  if 65 ≤ c ∧ c ≤ 90 then (((c : Int) - 65 - shift) % 26 + 65).toNat
  else if 97 ≤ c ∧ c ≤ 122 then (((c : Int) - 97 - shift) % 26 + 97).toNat
  else c

/-- For shifts at most 26 the JS remainder in `caesarShiftChar` receives a
non-negative dividend, so it agrees with the mathematical modulus the
specification describes. -/
theorem caesarShiftChar_eq_claimChar (shift : Int) (hs : shift ≤ 26) (c : Nat) :
    caesarShiftChar shift c = caesarClaimChar shift c := by
  unfold caesarShiftChar caesarClaimChar jsFromCharCode jsRem
  split_ifs <;> omega

/-- Two Caesar passes cancel per character whenever their shifts sum to a
multiple of 26 and each is at most 26 (so that both JS remainders see
non-negative dividends). -/
theorem caesarShiftChar_comp (u v : Int) (hu : u ≤ 26) (hv : v ≤ 26)
    (huv : (u + v) % 26 = 0) (c : Nat) :
    caesarShiftChar v (caesarShiftChar u c) = c := by
  unfold caesarShiftChar jsFromCharCode jsRem
  split_ifs <;> omega

/-- C1: the hex decoder never fails, and on the odd-length input
"48656c6c6" of the claim it returns a success: "Hell"
followed by code unit 6 (the trailing lone digit "6" parsed as a one-digit
hex byte), instead of the `DecodeError(Hex)` the claim requires. -/
theorem c1_decryptHex_odd_length_succeeds :
    decryptHex (jsOfString "48656c6c6") = .ok [72, 101, 108, 108, 6] ∧
    ∀ t : JSString, ∃ r, decryptHex t = .ok r :=
  ⟨rfl, fun _ => ⟨_, rfl⟩⟩

/-- C2: the base64 decoder never fails, and on the claim's input
"not base64!!" it returns a success — Node's forgiving decoder drops the
space and the exclamation marks, decodes the remaining characters, and
`toString('utf8')` turns the two invalid lead bytes into U+FFFD — instead of
the `DecodeError(Base64)` the claim requires. -/
theorem c2_decryptBase64_invalid_succeeds :
    decryptBase64 (jsOfString "not base64!!") = .ok (jsOfString "\uFFFD\uFFFD[j\u01FA") ∧
    ∀ t : JSString, ∃ r, decryptBase64 t = .ok r :=
  ⟨rfl, fun _ => ⟨_, rfl⟩⟩

/-- C3: the decimal decoder never fails, and on the input `\72\abc`, whose
second fragment "abc" is not a valid non-negative integer, it returns a
success in which that fragment became the NUL code unit
(`String.fromCharCode(NaN)`), instead of the `DecodeError(Decimal)` the
claim requires. -/
theorem c3_decryptDecimal_nonnumeric_succeeds :
    decryptDecimal (jsOfString "\\72\\abc") = .ok [72, 0] ∧
    ∀ t : JSString, ∃ r, decryptDecimal t = .ok r :=
  ⟨rfl, fun _ => ⟨_, rfl⟩⟩

/-- C4 counterexample: at shift 27 the claim fails — the code maps "a" to
the non-letter backtick (code unit 96), while shifting backward by 27
within the lowercase alphabet modulo 26 would give "z" (code unit 122). -/
theorem c4_caesar_claim_counterexample :
    decryptCaesar (jsOfString "a") 27 = [96] ∧
    caesarClaimChar 27 97 = 122 ∧
    decryptCaesar (jsOfString "a") 27 ≠ [122] := by
  decide

/-- C4 (amended): for every integer shift at most 26 — in particular the
default 3 and every standard shift 0–25 — the Caesar decoder maps each ASCII
letter backward by `shift` within its own case's alphabet modulo 26, leaves
every other code unit unchanged, and never fails (it is a total map); and
when the shift is unspecified the dispatch uses 3. -/
theorem c4_decryptCaesar_matches_claim (shift : Int) (t : JSString) (hs : shift ≤ 26) :
    decryptCaesar t shift = t.map (caesarClaimChar shift) ∧
    performDecryption t "caesar" none = .ok (decryptCaesar t 3, "caesar") := by
  constructor
  · unfold decryptCaesar
    exact List.map_congr_left fun c _ => caesarShiftChar_eq_claimChar shift hs c
  · rfl

/-- C4 witness: the amended theorem applied at shift 3 and input "Khoor". -/
theorem c4_decryptCaesar_matches_claim_witness :
    decryptCaesar (jsOfString "Khoor") 3 = (jsOfString "Khoor").map (caesarClaimChar 3) ∧
    performDecryption (jsOfString "Khoor") "caesar" none =
      .ok (decryptCaesar (jsOfString "Khoor") 3, "caesar") :=
  c4_decryptCaesar_matches_claim 3 (jsOfString "Khoor") (by decide)

/-- C5: the classifier is literally the ordered first-match cascade
decimal, hex, base64, url, caesar; consequently every non-empty pure-digit
string matches the decimal rule and classifies as "decimal", regardless of
which later rules (such as the hex shape) it also satisfies. -/
theorem c5_detect_order_decimal_first :
    (∀ s : JSString, detectEncryptionType s =
        if decimalRule s then "decimal"
        else if hexRule s then "hex"
        else if base64Rule s then "base64"
        else if urlRule s then "url"
        else "caesar") ∧
    (∀ s : JSString, s ≠ [] → (∀ c ∈ s, jsIsDigit c) →
        detectEncryptionType s = "decimal") := by
  refine ⟨fun s => rfl, fun s hne hdig => ?_⟩
  have hstrip : stripBackslashes s = s := by
    unfold stripBackslashes
    refine List.filter_eq_self.mpr fun c hc => ?_
    have := hdig c hc
    simp only [jsIsDigit, Bool.and_eq_true, decide_eq_true_eq] at this
    simp only [decide_eq_true_eq]
    omega
  have hdec : decimalRule s = true := by
    unfold decimalRule
    rw [hstrip]
    rw [Bool.and_eq_true, Bool.not_eq_true', List.isEmpty_eq_false, List.all_eq_true]
    exact ⟨hne, hdig⟩
  unfold detectEncryptionType
  rw [hdec]
  rfl

/-- C5 witness: the pure digit string "12345678" (which also satisfies the
hex rule, having even length and hex-only characters) classifies as
"decimal". -/
theorem c5_detect_order_decimal_first_witness :
    detectEncryptionType (jsOfString "12345678") = "decimal" ∧
    hexRule (jsOfString "12345678") = true :=
  ⟨c5_detect_order_decimal_first.2 (jsOfString "12345678") (by decide) (by decide),
   by decide⟩

/-- C6 counterexample: the claim's characterization fails in both
directions.  "4 8" strips to the non-empty even-length hex string "48", yet
the classifier does not return "hex" (the raw length 3 is odd); and a string
of two spaces strips to the empty string, yet the classifier returns "hex"
(the raw text is whitespace-only with even raw length). -/
theorem c6_hex_rule_counterexample :
    (decimalRule (jsOfString "4 8") = false ∧
      stripJsWhitespace (jsOfString "4 8") ≠ [] ∧
      (∀ c ∈ stripJsWhitespace (jsOfString "4 8"), jsIsHexDigit c = true) ∧
      (stripJsWhitespace (jsOfString "4 8")).length % 2 = 0 ∧
      detectEncryptionType (jsOfString "4 8") ≠ "hex") ∧
    (decimalRule (jsOfString "  ") = false ∧
      stripJsWhitespace (jsOfString "  ") = [] ∧
      detectEncryptionType (jsOfString "  ") = "hex") := by
  decide

/-- C6 (amended): for every input that does not match the decimal rule, the
classifier returns "hex" exactly when the raw text is non-empty, every
character is a hexadecimal digit or a whitespace character, and the raw
length — whitespace included — is even. -/
theorem c6_hex_rule_characterization (s : JSString) (hdec : decimalRule s = false) :
    detectEncryptionType s = "hex" ↔
      (s ≠ [] ∧ (∀ c ∈ s, jsIsHexDigit c = true ∨ jsIsWhitespace c = true) ∧
        s.length % 2 = 0) := by
  have key : detectEncryptionType s = "hex" ↔ hexRule s = true := by
    unfold detectEncryptionType
    rw [hdec]
    by_cases hh : hexRule s = true
    · simp [hh]
    · rw [if_neg (show ¬(false = true) by simp), if_neg (by simpa using hh)]
      constructor
      · intro h
        exfalso
        revert h
        split_ifs <;> decide
      · intro h
        exact absurd h hh
  rw [key]
  unfold hexRule
  simp [List.isEmpty_eq_false, List.all_eq_true, Bool.or_eq_true]
  tauto

/-- C6 witness: the amended characterization applied at "4a", an input the
decimal rule rejects; both sides hold and the classifier answers "hex". -/
theorem c6_hex_rule_characterization_witness :
    decimalRule (jsOfString "4a") = false ∧
    (detectEncryptionType (jsOfString "4a") = "hex" ↔
      (jsOfString "4a" ≠ [] ∧
        (∀ c ∈ jsOfString "4a", jsIsHexDigit c = true ∨ jsIsWhitespace c = true) ∧
        (jsOfString "4a").length % 2 = 0)) :=
  ⟨by decide, c6_hex_rule_characterization (jsOfString "4a") (by decide)⟩

/-- C7 counterexample: the Caesar round trip fails at shift 27 — encoding
"z" with shift -27 gives "a", and decoding that with shift 27 gives the
backtick (code unit 96), not "z". -/
theorem c7_caesar_roundtrip_counterexample :
    decryptCaesar (decryptCaesar (jsOfString "z") (-27)) 27 ≠ jsOfString "z" := by
  decide

/-- C7 (amended): rot13 is self-inverse on every string, and the Caesar
round trip `caesarDecode(caesarDecode(s, -shift), shift) = s` holds for
every string and every integer shift with absolute value at most 26 (for
larger shifts the JS remainder of a negative dividend leaves the alphabet,
as the counterexample shows). -/
theorem c7_decode_roundtrips :
    (∀ t : JSString, decryptROT13 (decryptROT13 t) = t) ∧
    (∀ (shift : Int) (t : JSString), -26 ≤ shift → shift ≤ 26 →
      decryptCaesar (decryptCaesar t (-shift)) shift = t) := by
  constructor
  · intro t
    unfold decryptROT13 decryptCaesar
    rw [List.map_map]
    calc List.map (caesarShiftChar 13 ∘ caesarShiftChar 13) t
        = List.map id t :=
          List.map_congr_left
            (fun a _ => caesarShiftChar_comp 13 13 (by norm_num) (by norm_num) (by decide) a)
      _ = t := List.map_id t
  · intro shift t h1 h2
    unfold decryptCaesar
    rw [List.map_map]
    calc List.map (caesarShiftChar shift ∘ caesarShiftChar (-shift)) t
        = List.map id t :=
          List.map_congr_left
            (fun a _ => caesarShiftChar_comp (-shift) shift (by omega) h2 (by simp) a)
      _ = t := List.map_id t

/-- C7 witness: both round trips evaluated at "Hello" with shift 5. -/
theorem c7_decode_roundtrips_witness :
    decryptCaesar (decryptCaesar (jsOfString "Hello") (-5)) 5 = jsOfString "Hello" :=
  c7_decode_roundtrips.2 5 (jsOfString "Hello") (by decide) (by decide)

/-- C8: the shift parameter cannot influence the outcome unless the resolved
kind is "caesar": whenever the resolved kind is one of decimal, hex, base64,
rot13 or url, any two shift values produce identical outcomes. -/
theorem c8_shift_irrelevant_unless_caesar (text : JSString) (encType : String)
    (s1 s2 : Option Int)
    (h : resolveKind text encType ∈ (["decimal", "hex", "base64", "rot13", "url"] : List String)) :
    performDecryption text encType s1 = performDecryption text encType s2 := by
  unfold performDecryption
  have hk : decodeByKind text (resolveKind text encType) s1 =
      decodeByKind text (resolveKind text encType) s2 := by
    simp only [List.mem_cons, List.not_mem_nil, or_false] at h
    rcases h with h | h | h | h | h <;> rw [h] <;> rfl
  rw [hk]

/-- C8 witness: decoding "48" with explicit kind "hex" under shifts 0 and 5
gives the same outcome. -/
theorem c8_shift_irrelevant_unless_caesar_witness :
    performDecryption (jsOfString "48") "hex" (some 0) =
      performDecryption (jsOfString "48") "hex" (some 5) :=
  c8_shift_irrelevant_unless_caesar (jsOfString "48") "hex" (some 0) (some 5) (by decide)

/-- C9: the classifier always returns one of the five labels decimal, hex,
base64, url, caesar; it never returns "rot13" or the request-only
pseudo-value "auto", so an auto-mode request can never resolve to rot13. -/
theorem c9_detect_never_rot13 (s : JSString) :
    (detectEncryptionType s = "decimal" ∨ detectEncryptionType s = "hex" ∨
      detectEncryptionType s = "base64" ∨ detectEncryptionType s = "url" ∨
      detectEncryptionType s = "caesar") ∧
    detectEncryptionType s ≠ "rot13" ∧
    detectEncryptionType s ≠ "auto" ∧
    resolveKind s "auto" ≠ "rot13" := by
  unfold resolveKind detectEncryptionType
  split_ifs <;> decide

/-- C10: for every stored session list and every limit N, the history query
returns exactly min(N, number of stored records) records — in particular at
most N, and all N requested whenever the store holds at least N; they are
ordered newest-first by creation time (the comparator key, a missing date
reading as time 0); and they are stored records whose creation times
dominate every record left out. -/
theorem c10_getDecryptionSessions_spec (sessions : List DecryptionSession) (limit : Nat) :
    (getDecryptionSessions sessions limit).length = min limit sessions.length ∧
    (getDecryptionSessions sessions limit).length ≤ limit ∧
    List.Pairwise (fun a b => sessionSortKey b ≤ sessionSortKey a)
      (getDecryptionSessions sessions limit) ∧
    ∃ rest : List DecryptionSession,
      (getDecryptionSessions sessions limit ++ rest).Perm sessions ∧
      ∀ a ∈ getDecryptionSessions sessions limit, ∀ b ∈ rest,
        sessionSortKey b ≤ sessionSortKey a := by
  have hsorted : List.Pairwise (fun a b => sessionLe a b = true)
      (sessions.mergeSort sessionLe) :=
    List.sorted_mergeSort
      (fun a b c hab hbc => by
        simp only [sessionLe, decide_eq_true_eq] at *
        omega)
      (fun a b => by
        simp only [sessionLe, Bool.or_eq_true, decide_eq_true_eq]
        omega)
      sessions
  have hperm := List.mergeSort_perm sessions sessionLe
  have hlen : (sessions.mergeSort sessionLe).length = sessions.length :=
    hperm.length_eq
  unfold getDecryptionSessions
  refine ⟨?_, ?_, ?_, (sessions.mergeSort sessionLe).drop limit, ?_, ?_⟩
  · rw [List.length_take, hlen]
  · simp [List.length_take]
  · exact (hsorted.sublist (List.take_sublist limit _)).imp
      (fun h => by simpa [sessionLe] using h)
  · rw [List.take_append_drop]
    exact hperm
  · intro a ha b hb
    have hcross := (List.pairwise_append.mp
      ((List.take_append_drop limit (sessions.mergeSort sessionLe)).symm ▸ hsorted)).2.2
      a ha b hb
    simpa [sessionLe] using hcross

/-! Sanity checks: the literal scenarios of the specification, evaluated on
the embedding. -/

/-- Literal scenario: decimal input decodes to "Hello". -/
theorem sanity_decimal_hello :
    decryptDecimal (jsOfString "\\72\\101\\108\\108\\111") = .ok (jsOfString "Hello") := rfl

/-- Literal scenario: hex input decodes to "Hello". -/
theorem sanity_hex_hello :
    decryptHex (jsOfString "48656c6c6f") = .ok (jsOfString "Hello") := rfl

/-- Literal scenario: base64 input decodes to "Hello". -/
theorem sanity_base64_hello :
    decryptBase64 (jsOfString "SGVsbG8=") = .ok (jsOfString "Hello") := rfl

/-- Literal scenario: Caesar input at the default shift decodes to "Hello". -/
theorem sanity_caesar_hello :
    decryptCaesar (jsOfString "Khoor") = jsOfString "Hello" := by decide

/-- Literal scenario: rot13 input decodes to "Hello". -/
theorem sanity_rot13_hello :
    decryptROT13 (jsOfString "Uryyb") = jsOfString "Hello" := by decide

/-- Literal scenario: url input decodes to "Hello World", and a malformed
escape sequence raises the URL decode error. -/
theorem sanity_url_hello :
    decryptURL (jsOfString "Hello%20World") = .ok (jsOfString "Hello World") ∧
    decryptURL (jsOfString "%ZZ") = .error "فشل في فك تشفير URL" := ⟨rfl, rfl⟩

/-- Literal scenario: each sample input is classified as its own kind. -/
theorem sanity_detect_scenarios :
    detectEncryptionType (jsOfString "48656c6c6f") = "hex" ∧
    detectEncryptionType (jsOfString "SGVsbG8=") = "base64" ∧
    detectEncryptionType (jsOfString "Hello%20World") = "url" ∧
    detectEncryptionType (jsOfString "Khoor") = "caesar" := ⟨rfl, rfl, rfl, rfl⟩

/-- Literal scenario: an auto-mode request resolves the kind and decodes. -/
theorem sanity_auto_dispatch :
    performDecryption (jsOfString "SGVsbG8=") "auto" none = .ok (jsOfString "Hello", "base64") := rfl
